import Mathlib

/-!
Verification development for the portfolio optimizer frontend.

Shallow embedding of the client-side orchestration code:

* `Types` — the message and data shapes from `src/frontend/src/types/index.ts`.
  Date strings are identified with their parsed millisecond timestamps
  (`new Date(s).getTime()`), so date-valued fields are modelled as integers
  (or rationals where fractional arithmetic on them occurs).
* `WSService` — `src/frontend/src/services/WebSocketService.ts`
  (`send`, `handleClose`, `attemptReconnect`).  `Math.random()` jitter is
  modelled as an explicit input.
* `Hook` — the `useWebSocket` hook (second document of
  `src/frontend/src/hooks/useFullscreen.ts`): the pre-handler message queue
  and the wire shape of the compute request.  Handlers are modelled by an
  abstract identity type; a delivery is recorded as a (handler, message) pair.
* `Dashboard` — the `DashboardPage` component of `src/frontend/src/App.tsx`:
  `validateDateRange`, `cleanupPendingCompute`, the server-message switch,
  `handleCompute`, the disconnect-reset effect and the unmount cleanup.
  React refs/state are collected into one record; JS `Set`/`Map`/`Record`
  fields become association lists with the corresponding insert semantics.
* `Backend` — the compute engine is not part of `src/`; the definitions
  there are modelled from the spec (each doc comment says so).
-/

namespace Types

/-- JS value occurring in a wire message (flat payloads only). -/
inductive JsValue where
  | str (s : String)
  | num (n : Int)
  | bool (b : Bool)
  deriving DecidableEq, Repr

/-- A JS object literal: ordered field list, as constructed in the source. -/
abbrev JsObject := List (String × JsValue)

/-- Rendering of a single JS value by `JSON.stringify`. -/
def JsValue.render : JsValue → String
  | .str s => "\"" ++ s ++ "\""
  | .num n => toString n
  | .bool b => if b then "true" else "false"

/-- `JSON.stringify` on a flat object literal. -/
def jsonStringify (obj : JsObject) : String :=
  "\x7b" ++ String.intercalate ","
    (obj.map (fun p => "\"" ++ p.1 ++ "\":" ++ p.2.render)) ++ "\x7d"

/-- Connection status union from `types/websocket` (re-exported by `types/index.ts`). -/
inductive ConnectionStatus where
  | disconnected
  | connecting
  | connected
  | reconnecting
  | error
  deriving DecidableEq, Repr

/-- `DateRange` from `types/index.ts`; the three date strings are modelled by
their parsed millisecond timestamps. -/
structure DateRange where
  fit_start_date : Int
  fit_end_date : Int
  test_end_date : Int
  deriving DecidableEq, Repr

/-- `PortfolioSegment` from `types/index.ts` (weights as an association list). -/
structure PortfolioSegment where
  start_date : Int
  end_date : Int
  weights : List (String × ℚ)
  deriving DecidableEq, Repr

/-- Backend summary statistics (`ResultMessage.performance.stats`). -/
structure PerformanceStats where
  total_return : ℚ
  annualized_return : ℚ
  volatility : ℚ
  sharpe_ratio : ℚ
  max_drawdown : ℚ
  deriving DecidableEq, Repr

/-- `ResultMessage.performance`: dates (ms timestamps), cumulative returns and
optional backend stats. -/
structure PerformanceData where
  dates : List ℚ
  cumulative_returns : List ℚ
  stats : Option PerformanceStats
  deriving DecidableEq, Repr

/-- `AllocatorResult` from `types/index.ts`. -/
structure AllocatorResult where
  allocator_id : String
  segments : List PortfolioSegment
  performance : PerformanceData
  deriving DecidableEq, Repr

/-- Progress phase union. -/
inductive ProgressPhase where
  | fetching
  | optimizing
  | metrics
  | complete
  | cached
  deriving DecidableEq, Repr

/-- `ProgressMessage` payload (without the `type` tag). -/
structure ProgressInfo where
  allocator_id : String
  allocator_name : String
  phase : ProgressPhase
  current : Nat
  total : Nat
  segment : Option Nat
  total_segments : Option Nat
  deriving DecidableEq, Repr

/-- Allocator config payloads are opaque for the orchestration claims; the
runtime type guards of `App.tsx` always accept a well-typed config, so a
config is modelled as an opaque token. -/
abbrev AllocConfig := String

/-- The server-to-client message union (`ServerMessage` in `types/index.ts`). -/
inductive ServerMessage where
  | allocatorCreated (id : String) (allocator_type : String) (config : AllocConfig)
  | allocatorUpdated (id : String) (config : AllocConfig)
  | allocatorsList (allocators : List (String × String × AllocConfig))
  | allocatorDeleted (id : String)
  | progress (p : ProgressInfo)
  | result (allocator_id : String) (segments : List PortfolioSegment)
      (performance : PerformanceData)
  | error (message : String) (code : String) (allocator_id : Option String)
  deriving DecidableEq, Repr

end Types

namespace WSService

open Types

/-- `WebSocket.readyState` constants. -/
inductive ReadyState where
  | CONNECTING
  | OPEN
  | CLOSING
  | CLOSED
  deriving DecidableEq, Repr

/-- Mutable fields of `WebSocketService`.  `ws = none` models a `null`
socket reference; `reconnectTimeout` is the delay (ms) of the scheduled
reconnect timer, if one is pending. -/
structure ServiceState where
  ws : Option ReadyState
  status : ConnectionStatus
  reconnectAttempts : Nat
  isCleanClose : Bool
  isReconnecting : Bool
  reconnectTimeout : Option ℚ
  deriving DecidableEq, Repr

/-- `maxReconnectAttempts` constant of `WebSocketService`. -/
def maxReconnectAttempts : Nat := 5

/-- `WebSocketService.send`: transmit the JSON serialization when the socket
is OPEN, otherwise log a warning and drop the message.  The transmitted
payload (if any) is returned alongside the (unchanged) state. -/
def send (s : ServiceState) (message : JsObject) : ServiceState × Option String :=
  if s.ws = some .OPEN then (s, some (jsonStringify message))
  else (s, none)

/-- `WebSocketService.attemptReconnect`, with `Math.random() * 1000` passed
in as the `jitter` argument. -/
def attemptReconnect (s : ServiceState) (jitter : ℚ) : ServiceState :=
  if s.isReconnecting then s
  else if maxReconnectAttempts ≤ s.reconnectAttempts then
    { s with status := .error, isReconnecting := false }
  else
    -- clear any existing reconnect timeout, close and null out the old socket
    let s1 := { s with reconnectTimeout := none, ws := none }
    let attempts := s1.reconnectAttempts + 1
    let baseDelay : ℚ := min (1000 * 2 ^ attempts) 30000
    { s1 with
      isReconnecting := true
      status := .reconnecting
      reconnectAttempts := attempts
      reconnectTimeout := some (baseDelay + jitter) }

/-- `WebSocketService.handleClose`: clean close (code 1000) or an intentional
`disconnect()` goes to `disconnected` and resets the attempt counter; any
other close triggers `attemptReconnect`. -/
def handleClose (s : ServiceState) (code : Nat) (jitter : ℚ) : ServiceState :=
  if code = 1000 ∨ s.isCleanClose then
    { s with status := .disconnected, reconnectAttempts := 0 }
  else
    attemptReconnect s jitter

end WSService

namespace Hook

open Types

/-- The object literal sent by the hook's `compute` callback
(`useWebSocket` in `hooks/useFullscreen.ts`).  Its parameter list is
`(allocatorId, dateRange, includeDividends)` — nothing else. -/
def computeMessage (allocatorId : String) (dateRange : DateRange)
    (includeDividends : Bool) : JsObject :=
  [ ("type", .str "compute")
  , ("allocator_id", .str allocatorId)
  , ("fit_start_date", .num dateRange.fit_start_date)
  , ("fit_end_date", .num dateRange.fit_end_date)
  , ("test_end_date", .num dateRange.test_end_date)
  , ("include_dividends", .bool includeDividends) ]

/-- A call of `wsCompute` as `DashboardPage.handleCompute` makes it, with the
two batch-progress arguments `i + 1` and `totalAllocators`.  JS applies the
3-parameter `compute` callback to these five arguments and silently drops the
extras, so the produced wire message ignores them. -/
def wsComputeCall (allocatorId : String) (dateRange : DateRange)
    (includeDividends : Bool) (_currentAllocator _totalAllocators : Nat) : JsObject :=
  computeMessage allocatorId dateRange includeDividends

/-- The field names of the `ComputeMessage` interface in `types/index.ts`
(documented there as matching the backend schemas). -/
def computeMessageDeclaredFields : List String :=
  [ "type", "allocator_id", "fit_start_date", "fit_end_date", "test_end_date"
  , "include_dividends", "current_allocator", "total_allocators" ]

/-- A raw incoming frame: either a structurally valid `ServerMessage`
(an object with a string `type`), or anything else. -/
inductive RawMessage where
  | valid (m : ServerMessage)
  | invalid
  deriving DecidableEq

/-- Hook-held refs relevant to message dispatch: `messageHandlerRef` and
`messageQueueRef`, plus the `error` state set on error messages.  Handlers
are functions in the source; they are modelled by an abstract identity type
`H`, and a delivery `handler(message)` is recorded as a pair. -/
structure HookState (H : Type) where
  handler : Option H
  queue : List ServerMessage
  error : Option String
  deriving DecidableEq

/-- The `onMessage` callback passed to `WebSocketService`: invalid frames are
logged and dropped; an `error` message updates the error state; then the
message is handed to the registered handler, or queued when none is set.
Returns the new state and the deliveries made. -/
def onMessage {H : Type} (s : HookState H) (raw : RawMessage) :
    HookState H × List (H × ServerMessage) :=
  match raw with
  | .invalid => (s, [])
  | .valid m =>
    let s1 :=
      match m with
      | .error msg _ _ => { s with error := some msg }
      | _ => s
    match s1.handler with
    | some h => (s1, [(h, m)])
    | none => ({ s1 with queue := s1.queue ++ [m] }, [])

/-- `useWebSocket.setMessageHandler`: store the handler, then flush any
queued messages to it in arrival order and empty the queue. -/
def setMessageHandler {H : Type} (s : HookState H) (h : H) :
    HookState H × List (H × ServerMessage) :=
  let s1 := { s with handler := some h }
  if s1.queue.isEmpty then (s1, [])
  else ({ s1 with queue := [] }, s1.queue.map (fun m => (h, m)))

end Hook

namespace Dashboard

open Types

/-- An allocator row as held in `DashboardPage` state (`enabled` is kept
separately in `enabledIds`). -/
structure AllocatorInfo where
  id : String
  allocator_type : String
  config : AllocConfig
  deriving DecidableEq, Repr

/-- Result of `validateDateRange` (the `DateRangeValidationError` shape). -/
structure DateRangeValidationError where
  isValid : Bool
  message : Option String
  deriving DecidableEq, Repr

/-- `validateDateRange` from `App.tsx`: `fit_end ≤ fit_start` and
`test_end ≤ fit_end` are rejected, in that order. -/
def validateDateRange (dateRange : DateRange) : DateRangeValidationError :=
  if dateRange.fit_end_date ≤ dateRange.fit_start_date then
    { isValid := false, message := some "Fit end date must be after fit start date" }
  else if dateRange.test_end_date ≤ dateRange.fit_end_date then
    { isValid := false, message := some "Test end date must be after fit end date" }
  else
    { isValid := true, message := none }

/-- A toast as produced by `addToast`.  The source field `type` is a Lean
keyword, hence `toastType`. -/
structure Toast where
  toastType : String
  title : String
  message : String
  deriving DecidableEq, Repr

/-- The 5-minute compute timeout delay (ms): `5 * 60 * 1000`. -/
def computeTimeoutMs : Nat := 5 * 60 * 1000

/-- `DashboardPage` state relevant to compute orchestration:
`pendingComputesRef` (a `Set`), `pendingTimeoutsRef` (a `Map` from allocator
id to the live timer, recorded with its delay), the `isComputing` and
`computingProgress` state, `results`, `allocators`, `enabledIds`, and the
`isActive` flag of the message-handler effect (`mounted`). -/
structure DashState where
  pendingComputes : List String
  pendingTimeouts : List (String × Nat)
  isComputing : Bool
  computingProgress : Option ProgressInfo
  results : List (String × AllocatorResult)
  allocators : List AllocatorInfo
  enabledIds : List String
  mounted : Bool
  deriving DecidableEq, Repr

/-- JS `Set.add`: no-op when the element is present. -/
def setAdd (l : List String) (x : String) : List String :=
  if l.contains x then l else l ++ [x]

/-- JS `Map.set`: overwrite in place, else append. -/
def mapSet (l : List (String × Nat)) (k : String) (v : Nat) : List (String × Nat) :=
  if l.any (fun p => p.1 = k) then
    l.map (fun p => if p.1 = k then (k, v) else p)
  else l ++ [(k, v)]

/-- `cleanupPendingCompute`: drop the allocator from the pending set, clear
its timeout, and when the pending set becomes empty reset the computing flag
and the progress display. -/
def cleanupPendingCompute (s : DashState) (allocatorId : String) : DashState :=
  let pending := s.pendingComputes.filter (fun x => x ≠ allocatorId)
  let timeouts := s.pendingTimeouts.filter (fun p => p.1 ≠ allocatorId)
  if pending.isEmpty then
    { s with pendingComputes := pending, pendingTimeouts := timeouts,
             isComputing := false, computingProgress := none }
  else
    { s with pendingComputes := pending, pendingTimeouts := timeouts }

/-- The `setMessageHandler` switch of `DashboardPage`.  A message received
after unmount (`isActive` false) is ignored.  Config type guards are always
satisfied in the model (configs are opaque), so `allocator_updated` always
applies the new config to the matching row.  A `result` stores the result
under its allocator id and then runs `cleanupPendingCompute`; an `error`
carrying an allocator id runs `cleanupPendingCompute` for it alone. -/
def handleServerMessage (s : DashState) (m : ServerMessage) : DashState :=
  if ¬ s.mounted then s else
  match m with
  | .allocatorCreated id ty config =>
    { s with allocators := s.allocators ++ [⟨id, ty, config⟩] }
  | .allocatorUpdated id config =>
    { s with allocators :=
        s.allocators.map (fun a => if a.id = id then { a with config := config } else a) }
  | .allocatorsList allocs =>
    { s with allocators := allocs.map (fun t => ⟨t.1, t.2.1, t.2.2⟩) }
  | .allocatorDeleted id =>
    { s with allocators := s.allocators.filter (fun a => a.id ≠ id),
             results := s.results.filter (fun r => r.1 ≠ id),
             enabledIds := s.enabledIds.filter (fun e => e ≠ id) }
  | .progress p =>
    { s with computingProgress := some p }
  | .result rid segments performance =>
    let withResult :=
      { s with results :=
          s.results.filter (fun r => r.1 ≠ rid) ++ [(rid, ⟨rid, segments, performance⟩)] }
    cleanupPendingCompute withResult rid
  | .error _ _ aid =>
    match aid with
    | some a => cleanupPendingCompute s a
    | none => s

/-- An occurrence the dashboard reacts to while mounted: a server message, or
the firing of one of the 5-minute compute timers.  A timer that has been
cleared cannot fire, so `timeoutFire` is a no-op unless the timer is live. -/
inductive DashEvent where
  | message (m : ServerMessage)
  | timeoutFire (allocatorId : String)
  deriving DecidableEq

/-- One dashboard step.  The body of the `setTimeout` callback in
`handleCompute` is `cleanupPendingCompute(allocator.id)`. -/
def dashStep (s : DashState) (e : DashEvent) : DashState :=
  match e with
  | .message m => handleServerMessage s m
  | .timeoutFire a =>
    if s.pendingTimeouts.any (fun p => p.1 = a) then cleanupPendingCompute s a
    else s

/-- The events that remove allocator `a`'s pending marker according to the
source: its result, a scoped error naming it, or its timeout firing. -/
def removesPendingOf (a : String) : DashEvent → Prop
  | .message (.result rid _ _) => rid = a
  | .message (.error _ _ aid) => aid = some a
  | .timeoutFire b => b = a
  | _ => False

instance (a : String) (e : DashEvent) : Decidable (removesPendingOf a e) := by
  unfold removesPendingOf
  cases e with
  | message m => cases m <;> simp <;> infer_instance
  | timeoutFire b => infer_instance

/-- The send loop of `handleCompute`: per enabled allocator, add the pending
marker, register the 5-minute timer, and call
`wsCompute(id, dateRange, includeDividends, i + 1, totalAllocators)`. -/
def computeLoop (dateRange : DateRange) (includeDividends : Bool) (total : Nat) :
    List AllocatorInfo → Nat → DashState → DashState × List JsObject
  | [], _, s => (s, [])
  | a :: rest, i, s =>
    let s1 := { s with
      pendingComputes := setAdd s.pendingComputes a.id
      pendingTimeouts := mapSet s.pendingTimeouts a.id computeTimeoutMs }
    let msg := Hook.wsComputeCall a.id dateRange includeDividends (i + 1) total
    let res := computeLoop dateRange includeDividends total rest (i + 1) s1
    (res.1, msg :: res.2)

/-- `DashboardPage.handleCompute`.  Outputs the new state, the wire messages
sent through the hook (in order) and the toasts raised.  `dateRange`,
`includeDividends` and the connection `status` are the closure captures. -/
def handleCompute (s : DashState) (dateRange : DateRange) (includeDividends : Bool)
    (status : ConnectionStatus) : DashState × List JsObject × List Toast :=
  let validation := validateDateRange dateRange
  if ¬ validation.isValid then
    (s, [], [⟨"error", "Validation Error", validation.message.getD "Invalid date range"⟩])
  else
    let enabledAllocators := s.allocators.filter (fun a => s.enabledIds.contains a.id)
    if enabledAllocators.isEmpty then (s, [], [])
    else if status ≠ .connected then (s, [], [])
    else
      let s1 := { s with isComputing := true, pendingComputes := [], pendingTimeouts := [] }
      let keptResults := s1.results.filter (fun r => ¬ enabledAllocators.any (fun a => a.id = r.1))
      let s2 := { s1 with results := keptResults }
      let loopRes := computeLoop dateRange includeDividends enabledAllocators.length
        enabledAllocators 0 s2
      (loopRes.1, loopRes.2, [])

/-- The disconnect-reset effect: when the status leaves `connected` while
`isComputing`, clear all pending markers and timers and reset the computing
state. -/
def onStatusChange (s : DashState) (status : ConnectionStatus) : DashState :=
  if status ≠ .connected ∧ s.isComputing then
    { s with pendingComputes := [], pendingTimeouts := [],
             isComputing := false, computingProgress := none }
  else s

/-- The unmount cleanups: clear every pending timer and the pending set, and
deactivate the message handler (`isActive := false`, handler replaced by a
no-op). -/
def onUnmount (s : DashState) : DashState :=
  { s with pendingTimeouts := [], pendingComputes := [], mounted := false }


/-- Concrete dashboard state with one enabled allocator, used to instantiate
the lifecycle properties. -/
def demoCreateState : DashState :=
  ⟨[], [], false, none, [], [⟨"a1", "manual", "c"⟩], ["a1"], true⟩

/-- Concrete dashboard state with one compute in flight, used to instantiate
the lifecycle properties. -/
def demoPendingState : DashState :=
  ⟨["a"], [("a", computeTimeoutMs)], true, none, [], [], [], true⟩

end Dashboard

namespace PortfolioInfo

open Types

/-- The stats record computed by `getStats` (`PortfolioStats` in the chart
component). -/
structure PortfolioStats where
  totalReturn : ℚ
  annualizedReturn : ℚ
  volatility : ℚ
  sharpeRatio : ℚ
  maxDrawdown : ℚ
  rebalances : Nat
  deriving DecidableEq, Repr

/-- Milliseconds per day, as in the source (`1000 * 60 * 60 * 24`). -/
def msPerDay : ℚ := 1000 * 60 * 60 * 24

/-- `getStats` from the chart component.  When backend stats are present they
are used verbatim; otherwise the fallback computes the total return as the
final cumulative value and the annualized return as a CAGR over the elapsed
calendar time between the first and last dates.  `Math.pow` is a float
primitive, modelled by the abstract argument `pow`; numbers are exact
rationals. -/
def getStats (pow : ℚ → ℚ → ℚ) (result : AllocatorResult) : PortfolioStats :=
  match result.performance.stats with
  | some backendStats =>
    { totalReturn := backendStats.total_return
      annualizedReturn := backendStats.annualized_return
      volatility := backendStats.volatility
      sharpeRatio := backendStats.sharpe_ratio
      maxDrawdown := backendStats.max_drawdown
      rebalances := result.segments.length }
  | none =>
    let dates := result.performance.dates
    let cumulative_returns := result.performance.cumulative_returns
    let totalReturn := cumulative_returns.getLast?.getD 0
    let yearsElapsed : ℚ :=
      if 2 ≤ dates.length then
        ((dates.getLast?.getD 0 - dates.headI) / msPerDay) / (365.25 : ℚ)
      else 0
    let annualizedReturn : ℚ :=
      if 0 < yearsElapsed then (pow (1 + totalReturn / 100) (1 / yearsElapsed) - 1) * 100
      else 0
    { totalReturn := totalReturn
      annualizedReturn := annualizedReturn
      volatility := 0
      sharpeRatio := 0
      maxDrawdown := 0
      rebalances := result.segments.length }

/-- The spec's wording for the fallback annualized return: CAGR computed from
`total_return` (the final cumulative value) and elapsed calendar time
(`years = days_elapsed / 365.25`, the days taken between the first and last
dates, zero when fewer than two dates exist); report 0 when the elapsed time
is zero or negative. -/
def specAnnualizedReturn (pow : ℚ → ℚ → ℚ) (result : AllocatorResult) : ℚ :=
  let total := result.performance.cumulative_returns.getLast?.getD 0
  let daysElapsed : ℚ :=
    if 2 ≤ result.performance.dates.length then
      (result.performance.dates.getLast?.getD 0 - result.performance.dates.headI) / msPerDay
    else 0
  let years := daysElapsed / (365.25 : ℚ)
  if years ≤ 0 then 0
  else (pow (1 + total / 100) (1 / years) - 1) * 100

end PortfolioInfo

namespace Backend

/-- Modelled from the spec: the Rebalance Scheduler (§4.3) is not in `src/`.
Boundary generator: starting at `cur`, step by `step`, close at `testEnd`
(the last segment may be shorter).  `fuel` bounds the recursion; it is
instantiated so that it never runs out for a positive step. -/
def boundariesAux (step testEnd : Nat) : Nat → Nat → List Nat
  | 0, cur => [cur, testEnd]
  | fuel + 1, cur =>
    if cur + step < testEnd then cur :: boundariesAux step testEnd fuel (cur + step)
    else [cur, testEnd]

/-- Modelled from the spec: the Rebalance Scheduler (§4.3) is not in `src/`.
Given `fit_end`, `test_end` and an interval, generate the strictly increasing
boundary dates starting at `fit_end` with the final boundary clamped to
`test_end`; when the first step already exceeds `test_end` this yields the
single segment `[fit_end, test_end]`. -/
def rebalanceBoundaries (fitEnd testEnd step : Nat) : List Nat :=
  boundariesAux step testEnd (testEnd - fitEnd) fitEnd

/-- Modelled from the spec: each adjacent pair of boundaries defines one
segment `[start_date, end_date)`. -/
def segmentsOf (boundaries : List Nat) : List (Nat × Nat) :=
  boundaries.zip boundaries.tail

/-- Modelled from the spec: the Price Data Provider's alignment policy
(§4.4) is not in `src/`.  A missing trading day is forward-filled only from
the same ticker's own prior value, looking back at most `tol` days; `none`
means the gap exceeds the tolerance. -/
def lookbackPrice (raw : Nat → Option Int) : Nat → Nat → Option Int
  | d, 0 => raw d
  | d, tol + 1 =>
    match raw d with
    | some p => some p
    | none => if d = 0 then none else lookbackPrice raw (d - 1) tol

/-- Modelled from the spec: the aligned price series a fit receives for one
ticker over the day range `[winStart, winStart + len)`.  Every requested day
must be resolvable within the gap tolerance, else the fetch fails with
`DataGap` (`none`). -/
def alignSeries (raw : Nat → Option Int) (gapTol winStart len : Nat) :
    Option (List (Nat × Int)) :=
  let days := List.range' winStart len
  if days.all (fun d => (lookbackPrice raw d gapTol).isSome) then
    some (days.filterMap (fun d => (lookbackPrice raw d gapTol).map (fun p => (d, p))))
  else none

/-- Modelled from the spec: for a dynamically rebalanced allocator (§4.1),
segment `i`'s weights are fit on a trailing window of the ticker's own price
history ending at segment `i`'s start date, the window having the length of
`fit_end - fit_start`. -/
def segmentFitData (raw : Nat → Option Int) (gapTol windowLen : Nat)
    (seg : Nat × Nat) : Option (List (Nat × Int)) :=
  let winStart := seg.1 - windowLen
  alignSeries raw gapTol winStart (seg.1 - winStart)

/-- Modelled from the spec: the segments of a dynamically rebalanced compute
together with the (single-ticker) price data each segment's fit receives. -/
def dynamicSegmentsWithFitData (raw : Nat → Option Int) (gapTol : Nat)
    (fitStart fitEnd testEnd step : Nat) :
    List ((Nat × Nat) × Option (List (Nat × Int))) :=
  let windowLen := fitEnd - fitStart
  (segmentsOf (rebalanceBoundaries fitEnd testEnd step)).map
    (fun seg => (seg, segmentFitData raw gapTol windowLen seg))

end Backend

section Helpers

open Types Dashboard

/-- Membership in a JS-set insertion. -/
theorem mem_setAdd {l : List String} {x y : String} :
    x ∈ setAdd l y ↔ x ∈ l ∨ x = y := by
  unfold setAdd
  by_cases h : y ∈ l
  · rw [if_pos (by simpa using h)]
    constructor
    · exact Or.inl
    · rintro (hx | rfl)
      · exact hx
      · exact h
  · simp [h]

/-- Overwriting a key in a JS map leaves the key list unchanged. -/
theorem keys_map_overwrite (l : List (String × Nat)) (k : String) (v : Nat) :
    (l.map (fun p => if p.1 = k then (k, v) else p)).map Prod.fst = l.map Prod.fst := by
  rw [List.map_map]
  refine List.map_congr_left ?_
  intro p _
  by_cases hk : p.1 = k
  · simp [hk]
  · simp [hk]

/-- Key membership in a JS-map insertion. -/
theorem mem_keys_mapSet {l : List (String × Nat)} {k x : String} {v : Nat} :
    x ∈ (mapSet l k v).map Prod.fst ↔ x ∈ l.map Prod.fst ∨ x = k := by
  unfold mapSet
  by_cases h : l.any (fun p => p.1 = k)
  · rw [if_pos h, keys_map_overwrite]
    rcases List.any_eq_true.mp h with ⟨p, hp, hpk⟩
    simp only [decide_eq_true_eq] at hpk
    constructor
    · exact Or.inl
    · rintro (hx | rfl)
      · exact hx
      · exact List.mem_map.mpr ⟨p, hp, hpk⟩
  · simp [h]

/-- Values in a JS-map insertion are `v` when they already all were. -/
theorem val_mapSet {l : List (String × Nat)} {k : String} {v : Nat}
    (hl : ∀ p ∈ l, p.2 = v) : ∀ p ∈ mapSet l k v, p.2 = v := by
  unfold mapSet
  by_cases h : l.any (fun p => p.1 = k)
  · rw [if_pos h]
    intro p hp
    rcases List.mem_map.mp hp with ⟨q, hq, hval⟩
    by_cases hk : q.1 = k
    · rw [if_pos hk] at hval
      subst hval
      rfl
    · rw [if_neg hk] at hval
      subst hval
      exact hl q hq
  · rw [if_neg h]
    intro p hp
    rcases List.mem_append.mp hp with hp | hp
    · exact hl p hp
    · simp at hp
      subst hp
      rfl

end Helpers

/-- C10: `WebSocketService.send` transmits the JSON serialization of the
message exactly when the underlying socket is OPEN; in every other state the
message is dropped, and in all cases the service state (status, reconnect
counters) is unchanged. -/
theorem send_only_when_open (s : WSService.ServiceState) (m : Types.JsObject) :
    (WSService.send s m).1 = s ∧
    (WSService.send s m).2 =
      (if s.ws = some WSService.ReadyState.OPEN then some (Types.jsonStringify m) else none) ∧
    ((WSService.send s m).2 = some (Types.jsonStringify m) ↔
      s.ws = some WSService.ReadyState.OPEN) := by
  by_cases h : s.ws = some WSService.ReadyState.OPEN <;>
    simp [WSService.send, h]

/-- C9: a close with code 1000 or after `disconnect()` goes to
`disconnected`, resets the attempt counter and schedules nothing; any other
close (when no reconnect is already in progress) either schedules a
reconnect after `min(1000·2^attempt, 30000) + jitter` ms while fewer than 5
attempts have been made, keeping the attempt count at most 5, or — after the
5th failed attempt — transitions to `error` and schedules nothing. -/
theorem reconnect_backoff_policy (s : WSService.ServiceState) (code : Nat) (j : ℚ) :
    ((code = 1000 ∨ s.isCleanClose = true) →
      WSService.handleClose s code j =
        { s with status := .disconnected, reconnectAttempts := 0 }) ∧
    (¬ (code = 1000 ∨ s.isCleanClose = true) → s.isReconnecting = false →
      ((s.reconnectAttempts < WSService.maxReconnectAttempts →
        (WSService.handleClose s code j).status = .reconnecting ∧
        (WSService.handleClose s code j).reconnectAttempts = s.reconnectAttempts + 1 ∧
        (WSService.handleClose s code j).reconnectAttempts ≤ WSService.maxReconnectAttempts ∧
        (WSService.handleClose s code j).reconnectTimeout =
          some (min (1000 * 2 ^ (s.reconnectAttempts + 1)) 30000 + j)) ∧
      (WSService.maxReconnectAttempts ≤ s.reconnectAttempts →
        (WSService.handleClose s code j).status = .error ∧
        (WSService.handleClose s code j).reconnectTimeout = s.reconnectTimeout ∧
        (WSService.handleClose s code j).reconnectAttempts = s.reconnectAttempts))) := by
  constructor
  · intro h
    rw [WSService.handleClose, if_pos h]
  · intro h hrec
    constructor
    · intro hlt
      have hle : ¬ WSService.maxReconnectAttempts ≤ s.reconnectAttempts := Nat.not_le.mpr hlt
      refine ⟨?_, ?_, ?_, ?_⟩ <;>
        simp [WSService.handleClose, WSService.attemptReconnect, h, hrec, hle]
      omega
    · intro hge
      refine ⟨?_, ?_, ?_⟩ <;>
        simp [WSService.handleClose, WSService.attemptReconnect, h, hrec, hge]

/-- C9 witness: a dirty close (code 1006) on a fresh connected service with
jitter 500 schedules the first reconnect after `min(1000·2, 30000) + 500` ms. -/
theorem reconnect_backoff_policy_witness :
    (WSService.handleClose ⟨some .OPEN, .connected, 0, false, false, none⟩ 1006 500).status =
        Types.ConnectionStatus.reconnecting ∧
    (WSService.handleClose ⟨some .OPEN, .connected, 0, false, false, none⟩ 1006 500).reconnectAttempts = 1 ∧
    (WSService.handleClose ⟨some .OPEN, .connected, 0, false, false, none⟩ 1006 500).reconnectAttempts ≤
        WSService.maxReconnectAttempts ∧
    (WSService.handleClose ⟨some .OPEN, .connected, 0, false, false, none⟩ 1006 500).reconnectTimeout =
        some (min (1000 * 2 ^ (0 + 1)) 30000 + 500) :=
  ((reconnect_backoff_policy ⟨some .OPEN, .connected, 0, false, false, none⟩ 1006 500).2
    (by decide) rfl).1 (by decide)

/-- C1 (code bug): the compute request the client actually sends carries only
`type`, `allocator_id`, the three dates and `include_dividends` — the
1-indexed batch hints `current_allocator` and `total_allocators`, required by
the declared `ComputeMessage` interface and supplied by `handleCompute` as
extra arguments, are dropped by the hook's 3-parameter `compute` callback.
Evaluated at the failing input `wsCompute("alloc-1", range, true, 1, 1)` from
a batch of one enabled allocator. -/
theorem compute_request_drops_batch_fields :
    (Dashboard.handleCompute
        ⟨[], [], false, none, [], [⟨"alloc-1", "manual", "cfg"⟩], ["alloc-1"], true⟩
        ⟨0, 1, 2⟩ true .connected).2.1 =
      [Hook.wsComputeCall "alloc-1" ⟨0, 1, 2⟩ true 1 1] ∧
    (Hook.wsComputeCall "alloc-1" ⟨0, 1, 2⟩ true 1 1).map Prod.fst =
      ["type", "allocator_id", "fit_start_date", "fit_end_date", "test_end_date",
        "include_dividends"] ∧
    "current_allocator" ∉ (Hook.wsComputeCall "alloc-1" ⟨0, 1, 2⟩ true 1 1).map Prod.fst ∧
    "total_allocators" ∉ (Hook.wsComputeCall "alloc-1" ⟨0, 1, 2⟩ true 1 1).map Prod.fst ∧
    "current_allocator" ∈ Hook.computeMessageDeclaredFields ∧
    "total_allocators" ∈ Hook.computeMessageDeclaredFields := by
  decide

/-- C8: a structurally valid message arriving before any handler is
registered is queued, not dropped (and nothing is delivered); registering a
handler delivers the whole queue to it in arrival order and empties the
queue; with a handler registered, a valid message is delivered directly and
the queue is untouched.  Invalid frames are dropped without queueing. -/
theorem hook_message_queue_order (H : Type) (s : Hook.HookState H)
    (m : Types.ServerMessage) (h : H) :
    (s.handler = none →
      (Hook.onMessage s (.valid m)).1.queue = s.queue ++ [m] ∧
      (Hook.onMessage s (.valid m)).2 = []) ∧
    ((Hook.setMessageHandler s h).1.handler = some h ∧
      (Hook.setMessageHandler s h).1.queue = [] ∧
      (Hook.setMessageHandler s h).2 = s.queue.map (fun x => (h, x))) ∧
    (s.handler = some h →
      (Hook.onMessage s (.valid m)).2 = [(h, m)] ∧
      (Hook.onMessage s (.valid m)).1.queue = s.queue) ∧
    Hook.onMessage s .invalid = (s, []) := by
  refine ⟨?_, ⟨?_, ?_, ?_⟩, ?_, rfl⟩
  · intro hn
    cases m <;> simp [Hook.onMessage, hn]
  · by_cases hq : s.queue = [] <;> simp [Hook.setMessageHandler, hq]
  · by_cases hq : s.queue = [] <;> simp [Hook.setMessageHandler, hq]
  · by_cases hq : s.queue = [] <;> simp [Hook.setMessageHandler, hq]
  · intro hs
    cases m <;> simp [Hook.onMessage, hs]

/-- C8 witness: with no handler set, a progress message is queued; setting
handler 7 then flushes the queue to it in order; with handler 7 set, a
further message is delivered directly. -/
theorem hook_message_queue_order_witness :
    ((Hook.onMessage (⟨none, [], none⟩ : Hook.HookState Nat)
        (.valid (.allocatorDeleted "a"))).1.queue = [] ++ [.allocatorDeleted "a"] ∧
      (Hook.onMessage (⟨none, [], none⟩ : Hook.HookState Nat)
        (.valid (.allocatorDeleted "a"))).2 = []) ∧
    ((Hook.setMessageHandler (⟨none, [.allocatorDeleted "a", .allocatorDeleted "b"], none⟩ :
        Hook.HookState Nat) 7).2 =
      [(7, .allocatorDeleted "a"), (7, .allocatorDeleted "b")]) ∧
    ((Hook.onMessage (⟨some 7, [], none⟩ : Hook.HookState Nat)
        (.valid (.allocatorDeleted "c"))).2 = [(7, .allocatorDeleted "c")]) :=
  ⟨(hook_message_queue_order Nat ⟨none, [], none⟩ (.allocatorDeleted "a") 7).1 rfl,
    by
      have h := (hook_message_queue_order Nat
        ⟨none, [.allocatorDeleted "a", .allocatorDeleted "b"], none⟩
        (.allocatorDeleted "a") 7).2.1.2.2
      simpa using h,
    ((hook_message_queue_order Nat ⟨some 7, [], none⟩ (.allocatorDeleted "c") 7).2.2.1 rfl).1⟩

/-- Fields of `cleanupPendingCompute` that do not depend on whether the
pending set became empty. -/
theorem cleanup_fields (s : Dashboard.DashState) (a : String) :
    (Dashboard.cleanupPendingCompute s a).pendingComputes =
      s.pendingComputes.filter (fun x => x ≠ a) ∧
    (Dashboard.cleanupPendingCompute s a).pendingTimeouts =
      s.pendingTimeouts.filter (fun p => p.1 ≠ a) ∧
    (Dashboard.cleanupPendingCompute s a).results = s.results ∧
    (Dashboard.cleanupPendingCompute s a).allocators = s.allocators ∧
    (Dashboard.cleanupPendingCompute s a).enabledIds = s.enabledIds ∧
    (Dashboard.cleanupPendingCompute s a).mounted = s.mounted := by
  simp only [Dashboard.cleanupPendingCompute]
  split <;> simp

/-- Filtering one key out of a JS map leaves every other key's entries
untouched. -/
theorem filter_key_commute (l : List (String × Nat)) (a b : String) (hb : b ≠ a) :
    (l.filter (fun p => p.1 ≠ a)).filter (fun p => p.1 = b) =
      l.filter (fun p => p.1 = b) := by
  rw [List.filter_filter]
  refine List.filter_congr ?_
  intro p _
  by_cases hpb : p.1 = b
  · have hpa : p.1 ≠ a := fun h => hb (hpb ▸ h)
    simp [hpb, hpa, hb]
  · simp [hpb]

/-- C4: a compute invocation whose date range violates
`fit_start < fit_end < test_end` is rejected synchronously: the state is
returned unchanged (no pending marker, no timer, results and the computing
flag untouched), no compute message is sent, and a single validation-error
toast is raised. -/
theorem invalid_date_range_rejected (s : Dashboard.DashState) (dr : Types.DateRange)
    (inc : Bool) (st : Types.ConnectionStatus)
    (hbad : ¬ (dr.fit_start_date < dr.fit_end_date ∧
      dr.fit_end_date < dr.test_end_date)) :
    (Dashboard.handleCompute s dr inc st).1 = s ∧
    (Dashboard.handleCompute s dr inc st).2.1 = [] ∧
    ∃ t, (Dashboard.handleCompute s dr inc st).2.2 = [t] ∧
      t.toastType = "error" ∧ t.title = "Validation Error" := by
  have hval : (Dashboard.validateDateRange dr).isValid = false := by
    unfold Dashboard.validateDateRange
    by_cases h1 : dr.fit_end_date ≤ dr.fit_start_date
    · rw [if_pos h1]
    · rw [if_neg h1]
      rcases not_and_or.mp hbad with h | h
      · exact absurd (lt_of_not_le h1) h
      · rw [if_pos (not_lt.mp h)]
  refine ⟨?_, ?_, ?_⟩ <;> simp [Dashboard.handleCompute, hval]

/-- C4 witness: the range with `fit_start = 5 > fit_end = 3` is rejected
with an unchanged state, no message and one validation-error toast. -/
theorem invalid_date_range_rejected_witness :
    (Dashboard.handleCompute
        ⟨["x"], [("x", Dashboard.computeTimeoutMs)], true, none, [], [], [], true⟩
        ⟨5, 3, 10⟩ true .connected).1 =
      ⟨["x"], [("x", Dashboard.computeTimeoutMs)], true, none, [], [], [], true⟩ ∧
    (Dashboard.handleCompute
        ⟨["x"], [("x", Dashboard.computeTimeoutMs)], true, none, [], [], [], true⟩
        ⟨5, 3, 10⟩ true .connected).2.1 = [] ∧
    ∃ t, (Dashboard.handleCompute
        ⟨["x"], [("x", Dashboard.computeTimeoutMs)], true, none, [], [], [], true⟩
        ⟨5, 3, 10⟩ true .connected).2.2 = [t] ∧
      t.toastType = "error" ∧ t.title = "Validation Error" :=
  invalid_date_range_rejected
    ⟨["x"], [("x", Dashboard.computeTimeoutMs)], true, none, [], [], [], true⟩
    ⟨5, 3, 10⟩ true .connected (by decide)

/-- C5: an error event carrying allocator id `a` removes exactly `a`'s
pending marker and timer; any other allocator's marker and timer entries,
all stored results, the allocator list and the enabled set are unchanged.
An error event without an allocator id changes nothing at all. -/
theorem scoped_error_isolation (s : Dashboard.DashState) (msg code a b : String)
    (hm : s.mounted = true) (_ha : a ∈ s.pendingComputes) :
    (a ∉ (Dashboard.handleServerMessage s (.error msg code (some a))).pendingComputes ∧
      (∀ p ∈ (Dashboard.handleServerMessage s (.error msg code (some a))).pendingTimeouts,
        p.1 ≠ a) ∧
      (b ≠ a →
        ((b ∈ (Dashboard.handleServerMessage s (.error msg code (some a))).pendingComputes) ↔
          b ∈ s.pendingComputes) ∧
        (Dashboard.handleServerMessage s (.error msg code (some a))).pendingTimeouts.filter
            (fun p => p.1 = b) =
          s.pendingTimeouts.filter (fun p => p.1 = b)) ∧
      (Dashboard.handleServerMessage s (.error msg code (some a))).results = s.results ∧
      (Dashboard.handleServerMessage s (.error msg code (some a))).allocators = s.allocators ∧
      (Dashboard.handleServerMessage s (.error msg code (some a))).enabledIds = s.enabledIds) ∧
    Dashboard.handleServerMessage s (.error msg code none) = s := by
  have hcl : Dashboard.handleServerMessage s (.error msg code (some a)) =
      Dashboard.cleanupPendingCompute s a := by
    simp [Dashboard.handleServerMessage, hm]
  obtain ⟨hf1, hf2, hf3, hf4, hf5, _⟩ := cleanup_fields s a
  refine ⟨⟨?_, ?_, ?_, ?_, ?_, ?_⟩, ?_⟩
  · rw [hcl, hf1]
    simp
  · rw [hcl, hf2]
    intro p hp
    exact of_decide_eq_true (List.mem_filter.mp hp).2
  · intro hb
    constructor
    · rw [hcl, hf1]
      simp [List.mem_filter, hb]
    · rw [hcl, hf2]
      exact filter_key_commute s.pendingTimeouts a b hb
  · rw [hcl, hf3]
  · rw [hcl, hf4]
  · rw [hcl, hf5]
  · simp [Dashboard.handleServerMessage, hm]

/-- C5 witness: with allocators `a` and `b` pending, a scoped error for `a`
removes only `a`'s marker and timer and leaves `b`'s marker, `b`'s timer and
the stored results unchanged; an unscoped error changes nothing. -/
theorem scoped_error_isolation_witness :
    ("a" ∉ (Dashboard.handleServerMessage
        ⟨["a", "b"], [("a", Dashboard.computeTimeoutMs), ("b", Dashboard.computeTimeoutMs)],
          true, none, [], [], [], true⟩
        (.error "boom" "COMPUTE_ERROR" (some "a"))).pendingComputes) ∧
    (("b" ∈ (Dashboard.handleServerMessage
        ⟨["a", "b"], [("a", Dashboard.computeTimeoutMs), ("b", Dashboard.computeTimeoutMs)],
          true, none, [], [], [], true⟩
        (.error "boom" "COMPUTE_ERROR" (some "a"))).pendingComputes) ↔
      "b" ∈ (["a", "b"] : List String)) ∧
    Dashboard.handleServerMessage
        ⟨["a", "b"], [("a", Dashboard.computeTimeoutMs), ("b", Dashboard.computeTimeoutMs)],
          true, none, [], [], [], true⟩
        (.error "boom" "COMPUTE_ERROR" none) =
      ⟨["a", "b"], [("a", Dashboard.computeTimeoutMs), ("b", Dashboard.computeTimeoutMs)],
        true, none, [], [], [], true⟩ :=
  ⟨(scoped_error_isolation
      ⟨["a", "b"], [("a", Dashboard.computeTimeoutMs), ("b", Dashboard.computeTimeoutMs)],
        true, none, [], [], [], true⟩
      "boom" "COMPUTE_ERROR" "a" "b" rfl (by decide)).1.1,
    ((scoped_error_isolation
      ⟨["a", "b"], [("a", Dashboard.computeTimeoutMs), ("b", Dashboard.computeTimeoutMs)],
        true, none, [], [], [], true⟩
      "boom" "COMPUTE_ERROR" "a" "b" rfl (by decide)).1.2.2.1 (by decide)).1,
    (scoped_error_isolation
      ⟨["a", "b"], [("a", Dashboard.computeTimeoutMs), ("b", Dashboard.computeTimeoutMs)],
        true, none, [], [], [], true⟩
      "boom" "COMPUTE_ERROR" "a" "b" rfl (by decide)).2⟩

/-- C6: leaving the `connected` state while computing clears every pending
marker and timer and resets the computing flag and progress display;
unmounting clears every pending marker and timer and deactivates message
processing, so any later server message leaves the state unchanged. -/
theorem disconnect_unmount_discards_pending (s : Dashboard.DashState)
    (st : Types.ConnectionStatus) (m : Types.ServerMessage) :
    (s.isComputing = true → st ≠ .connected →
      (Dashboard.onStatusChange s st).pendingComputes = [] ∧
      (Dashboard.onStatusChange s st).pendingTimeouts = [] ∧
      (Dashboard.onStatusChange s st).isComputing = false ∧
      (Dashboard.onStatusChange s st).computingProgress = none) ∧
    (Dashboard.onUnmount s).pendingComputes = [] ∧
    (Dashboard.onUnmount s).pendingTimeouts = [] ∧
    Dashboard.handleServerMessage (Dashboard.onUnmount s) m = Dashboard.onUnmount s := by
  refine ⟨?_, rfl, rfl, ?_⟩
  · intro hc hst
    simp [Dashboard.onStatusChange, hst, hc]
  · simp [Dashboard.handleServerMessage, Dashboard.onUnmount]

/-- C6 witness: two allocators mid-compute; the connection drops to
`reconnecting` and both markers and timers are released; likewise an unmount
clears them and a subsequent result message is ignored. -/
theorem disconnect_unmount_discards_pending_witness :
    ((Dashboard.onStatusChange
        ⟨["a", "b"], [("a", Dashboard.computeTimeoutMs), ("b", Dashboard.computeTimeoutMs)],
          true, none, [], [], [], true⟩
        .reconnecting).pendingComputes = [] ∧
      (Dashboard.onStatusChange
        ⟨["a", "b"], [("a", Dashboard.computeTimeoutMs), ("b", Dashboard.computeTimeoutMs)],
          true, none, [], [], [], true⟩
        .reconnecting).pendingTimeouts = [] ∧
      (Dashboard.onStatusChange
        ⟨["a", "b"], [("a", Dashboard.computeTimeoutMs), ("b", Dashboard.computeTimeoutMs)],
          true, none, [], [], [], true⟩
        .reconnecting).isComputing = false ∧
      (Dashboard.onStatusChange
        ⟨["a", "b"], [("a", Dashboard.computeTimeoutMs), ("b", Dashboard.computeTimeoutMs)],
          true, none, [], [], [], true⟩
        .reconnecting).computingProgress = none) ∧
    Dashboard.handleServerMessage
        (Dashboard.onUnmount
          ⟨["a", "b"], [("a", Dashboard.computeTimeoutMs), ("b", Dashboard.computeTimeoutMs)],
            true, none, [], [], [], true⟩)
        (.result "a" [] ⟨[], [], none⟩) =
      Dashboard.onUnmount
        ⟨["a", "b"], [("a", Dashboard.computeTimeoutMs), ("b", Dashboard.computeTimeoutMs)],
          true, none, [], [], [], true⟩ :=
  ⟨(disconnect_unmount_discards_pending
      ⟨["a", "b"], [("a", Dashboard.computeTimeoutMs), ("b", Dashboard.computeTimeoutMs)],
        true, none, [], [], [], true⟩
      .reconnecting (.result "a" [] ⟨[], [], none⟩)).1 rfl (by decide),
    (disconnect_unmount_discards_pending
      ⟨["a", "b"], [("a", Dashboard.computeTimeoutMs), ("b", Dashboard.computeTimeoutMs)],
        true, none, [], [], [], true⟩
      .reconnecting (.result "a" [] ⟨[], [], none⟩)).2.2.2⟩

/-- Key membership after filtering one key out of a JS map. -/
theorem mem_keys_filter_ne {l : List (String × Nat)} {k x : String} :
    x ∈ (l.filter (fun p => p.1 ≠ k)).map Prod.fst ↔
      x ∈ l.map Prod.fst ∧ x ≠ k := by
  simp only [List.mem_map, List.mem_filter, decide_eq_true_eq]
  constructor
  · rintro ⟨p, ⟨hpl, hpk⟩, rfl⟩
    exact ⟨⟨p, hpl, rfl⟩, hpk⟩
  · rintro ⟨⟨p, hpl, rfl⟩, hxk⟩
    exact ⟨p, ⟨hpl, hxk⟩, rfl⟩

/-- Membership after filtering one element out of a JS set. -/
theorem mem_filter_ne {l : List String} {k x : String} :
    x ∈ l.filter (fun y => y ≠ k) ↔ x ∈ l ∧ x ≠ k := by
  simp [List.mem_filter]

/-- A key is live in a JS map exactly when `any` finds it. -/
theorem any_key_iff {l : List (String × Nat)} {x : String} :
    l.any (fun p => p.1 = x) = true ↔ x ∈ l.map Prod.fst := by
  simp only [List.any_eq_true, List.mem_map, decide_eq_true_eq]

/-- When removing `a` empties the pending set, `cleanupPendingCompute`
resets the computing flag and the progress display. -/
theorem cleanup_resets (s : Dashboard.DashState) (a : String)
    (h : s.pendingComputes.filter (fun x => x ≠ a) = []) :
    (Dashboard.cleanupPendingCompute s a).isComputing = false ∧
    (Dashboard.cleanupPendingCompute s a).computingProgress = none := by
  simp only [Dashboard.cleanupPendingCompute, h]
  simp

/-- Pending-set membership after the `handleCompute` send loop. -/
theorem computeLoop_pending_mem (dr : Types.DateRange) (inc : Bool) (tot : Nat) :
    ∀ (l : List Dashboard.AllocatorInfo) (i : Nat) (s : Dashboard.DashState) (x : String),
      x ∈ (Dashboard.computeLoop dr inc tot l i s).1.pendingComputes ↔
        x ∈ s.pendingComputes ∨ x ∈ l.map (fun a => a.id) := by
  intro l
  induction l with
  | nil =>
    intro i s x
    simp [Dashboard.computeLoop]
  | cons a rest ih =>
    intro i s x
    simp only [Dashboard.computeLoop]
    rw [ih]
    simp only [mem_setAdd, List.map_cons, List.mem_cons]
    tauto

/-- Timer-key membership after the `handleCompute` send loop. -/
theorem computeLoop_timeouts_keys (dr : Types.DateRange) (inc : Bool) (tot : Nat) :
    ∀ (l : List Dashboard.AllocatorInfo) (i : Nat) (s : Dashboard.DashState) (x : String),
      x ∈ (Dashboard.computeLoop dr inc tot l i s).1.pendingTimeouts.map Prod.fst ↔
        x ∈ s.pendingTimeouts.map Prod.fst ∨ x ∈ l.map (fun a => a.id) := by
  intro l
  induction l with
  | nil =>
    intro i s x
    simp [Dashboard.computeLoop]
  | cons a rest ih =>
    intro i s x
    simp only [Dashboard.computeLoop]
    rw [ih]
    simp only [mem_keys_mapSet, List.map_cons, List.mem_cons]
    tauto

/-- Every timer registered by the send loop carries the 5-minute delay. -/
theorem computeLoop_timeouts_val (dr : Types.DateRange) (inc : Bool) (tot : Nat) :
    ∀ (l : List Dashboard.AllocatorInfo) (i : Nat) (s : Dashboard.DashState),
      (∀ p ∈ s.pendingTimeouts, p.2 = Dashboard.computeTimeoutMs) →
      ∀ p ∈ (Dashboard.computeLoop dr inc tot l i s).1.pendingTimeouts,
        p.2 = Dashboard.computeTimeoutMs := by
  intro l
  induction l with
  | nil =>
    intro i s hs
    simpa [Dashboard.computeLoop] using hs
  | cons a rest ih =>
    intro i s hs
    simp only [Dashboard.computeLoop]
    exact ih (i + 1) _ (val_mapSet hs)

/-- The messages the send loop produces, one per allocator, with the
1-indexed batch hints passed as (dropped) extra arguments. -/
theorem computeLoop_msgs (dr : Types.DateRange) (inc : Bool) (tot : Nat) :
    ∀ (l : List Dashboard.AllocatorInfo) (i : Nat) (s : Dashboard.DashState),
      (Dashboard.computeLoop dr inc tot l i s).2 =
        (List.enumFrom i l).map
          (fun p => Hook.wsComputeCall p.2.id dr inc (p.1 + 1) tot) := by
  intro l
  induction l with
  | nil =>
    intro i s
    simp [Dashboard.computeLoop]
  | cons a rest ih =>
    intro i s
    simp only [Dashboard.computeLoop, List.enumFrom, List.map_cons]
    rw [ih]

/-- The send loop leaves the computing flag (and the rest of the state other
than the pending bookkeeping) as it found it. -/
theorem computeLoop_isComputing (dr : Types.DateRange) (inc : Bool) (tot : Nat) :
    ∀ (l : List Dashboard.AllocatorInfo) (i : Nat) (s : Dashboard.DashState),
      (Dashboard.computeLoop dr inc tot l i s).1.isComputing = s.isComputing := by
  intro l
  induction l with
  | nil =>
    intro i s
    simp [Dashboard.computeLoop]
  | cons a rest ih =>
    intro i s
    simp only [Dashboard.computeLoop]
    rw [ih]

/-- `cleanupPendingCompute` for key `k` removes a live marker/timer pair for
`a` exactly when `k = a`. -/
theorem cleanup_removes_iff (s : Dashboard.DashState) (a k : String)
    (hp : a ∈ s.pendingComputes) (ht : a ∈ s.pendingTimeouts.map Prod.fst) :
    (a ∉ (Dashboard.cleanupPendingCompute s k).pendingComputes ∧
      a ∉ (Dashboard.cleanupPendingCompute s k).pendingTimeouts.map Prod.fst) ↔
      k = a := by
  obtain ⟨hf1, hf2, _, _, _, _⟩ := cleanup_fields s k
  rw [hf1, hf2]
  constructor
  · rintro ⟨h1, _⟩
    by_contra hk
    exact h1 (mem_filter_ne.mpr ⟨hp, fun hak => hk hak.symm⟩)
  · rintro rfl
    refine ⟨fun hmem => ?_, fun hmem => ?_⟩
    · exact (mem_filter_ne.mp hmem).2 rfl
    · exact (mem_keys_filter_ne.mp hmem).2 rfl

/-- A dashboard step removes a live pending marker (and its live timer) for
allocator `a` exactly when the event is `a`'s result, a scoped error naming
`a`, or `a`'s timeout firing. -/
theorem step_removes_pending_iff (s : Dashboard.DashState) (a : String)
    (e : Dashboard.DashEvent) (hm : s.mounted = true)
    (hp : a ∈ s.pendingComputes) (ht : a ∈ s.pendingTimeouts.map Prod.fst) :
    (a ∉ (Dashboard.dashStep s e).pendingComputes ∧
      a ∉ (Dashboard.dashStep s e).pendingTimeouts.map Prod.fst) ↔
      Dashboard.removesPendingOf a e := by
  cases e with
  | message m =>
    cases m with
    | allocatorCreated id ty cfg =>
      simp [Dashboard.dashStep, Dashboard.handleServerMessage, hm,
        Dashboard.removesPendingOf, hp]
    | allocatorUpdated id cfg =>
      simp [Dashboard.dashStep, Dashboard.handleServerMessage, hm,
        Dashboard.removesPendingOf, hp]
    | allocatorsList allocs =>
      simp [Dashboard.dashStep, Dashboard.handleServerMessage, hm,
        Dashboard.removesPendingOf, hp]
    | allocatorDeleted id =>
      simp [Dashboard.dashStep, Dashboard.handleServerMessage, hm,
        Dashboard.removesPendingOf, hp]
    | progress p =>
      simp [Dashboard.dashStep, Dashboard.handleServerMessage, hm,
        Dashboard.removesPendingOf, hp]
    | result rid segs perf =>
      have hs : Dashboard.dashStep s (.message (.result rid segs perf)) =
          Dashboard.cleanupPendingCompute
            { s with results :=
                s.results.filter (fun r => r.1 ≠ rid) ++ [(rid, ⟨rid, segs, perf⟩)] } rid := by
        simp [Dashboard.dashStep, Dashboard.handleServerMessage, hm]
      rw [hs]
      have := cleanup_removes_iff
        { s with results :=
            s.results.filter (fun r => r.1 ≠ rid) ++ [(rid, ⟨rid, segs, perf⟩)] }
        a rid hp ht
      simpa [Dashboard.removesPendingOf] using this
    | error m c aid =>
      cases aid with
      | some b =>
        have hs : Dashboard.dashStep s (.message (.error m c (some b))) =
            Dashboard.cleanupPendingCompute s b := by
          simp [Dashboard.dashStep, Dashboard.handleServerMessage, hm]
        rw [hs]
        have := cleanup_removes_iff s a b hp ht
        simpa [Dashboard.removesPendingOf] using this
      | none =>
        simp [Dashboard.dashStep, Dashboard.handleServerMessage, hm,
          Dashboard.removesPendingOf, hp]
  | timeoutFire b =>
    by_cases hb : s.pendingTimeouts.any (fun p => p.1 = b) = true
    · have hs : Dashboard.dashStep s (.timeoutFire b) =
          Dashboard.cleanupPendingCompute s b := by
        simp [Dashboard.dashStep, hb]
      rw [hs]
      have := cleanup_removes_iff s a b hp ht
      simpa [Dashboard.removesPendingOf] using this
    · have hs : Dashboard.dashStep s (.timeoutFire b) = s := by
        simp [Dashboard.dashStep, hb]
      rw [hs]
      simp only [Dashboard.removesPendingOf]
      constructor
      · rintro ⟨h1, _⟩
        exact absurd hp h1
      · rintro rfl
        exact absurd (any_key_iff.mpr ht) hb

/-- Pair-form restatement of `computeLoop_timeouts_keys`. -/
theorem computeLoop_timeouts_keys_pair (dr : Types.DateRange) (inc : Bool) (tot : Nat)
    (l : List Dashboard.AllocatorInfo) (i : Nat) (s : Dashboard.DashState) (x : String) :
    (∃ v, (x, v) ∈ (Dashboard.computeLoop dr inc tot l i s).1.pendingTimeouts) ↔
      (∃ v, (x, v) ∈ s.pendingTimeouts) ∨ x ∈ l.map (fun a => a.id) := by
  have h := computeLoop_timeouts_keys dr inc tot l i s x
  simpa using h

/-- On a valid date range with at least one enabled allocator and a live
connection, `handleCompute` creates the pending marker and the 5-minute
timer together for exactly the enabled allocators, sends one compute call
per enabled allocator (with the 1-indexed batch hints as arguments), and
raises the computing flag. -/
theorem handleCompute_creates (s : Dashboard.DashState) (dr : Types.DateRange) (inc : Bool)
    (hval : (Dashboard.validateDateRange dr).isValid = true)
    (hne : s.allocators.filter (fun a => s.enabledIds.contains a.id) ≠ []) :
    (∀ x : String,
      (x ∈ (Dashboard.handleCompute s dr inc .connected).1.pendingComputes ↔
        x ∈ (s.allocators.filter (fun a => s.enabledIds.contains a.id)).map
          (fun a => a.id)) ∧
      (x ∈ (Dashboard.handleCompute s dr inc .connected).1.pendingTimeouts.map Prod.fst ↔
        x ∈ (s.allocators.filter (fun a => s.enabledIds.contains a.id)).map
          (fun a => a.id))) ∧
    (∀ p ∈ (Dashboard.handleCompute s dr inc .connected).1.pendingTimeouts,
      p.2 = Dashboard.computeTimeoutMs) ∧
    (Dashboard.handleCompute s dr inc .connected).2.1 =
      (List.enumFrom 0 (s.allocators.filter (fun a => s.enabledIds.contains a.id))).map
        (fun p => Hook.wsComputeCall p.2.id dr inc (p.1 + 1)
          (s.allocators.filter (fun a => s.enabledIds.contains a.id)).length) ∧
    (Dashboard.handleCompute s dr inc .connected).1.isComputing = true := by
  have h3 : ¬ (∀ a ∈ s.allocators, a.id ∉ s.enabledIds) := by
    intro hall
    exact hne (List.filter_eq_nil_iff.mpr (fun a ha => by simpa using hall a ha))
  refine ⟨fun x => ⟨?_, ?_⟩, ?_, ?_, ?_⟩
  · simp [Dashboard.handleCompute, hval, h3, computeLoop_pending_mem]
  · simp [Dashboard.handleCompute, hval, h3, computeLoop_timeouts_keys_pair]
  · intro p hp
    simp [Dashboard.handleCompute, hval, h3] at hp
    exact computeLoop_timeouts_val dr inc _ _ 0 _ (by simp) p hp
  · simp [Dashboard.handleCompute, hval, h3, computeLoop_msgs]
  · simp [Dashboard.handleCompute, hval, h3, computeLoop_isComputing]

/-- When an event removes the last pending marker, the step resets the
computing flag and the progress display. -/
theorem step_remove_resets (s : Dashboard.DashState) (a : String) (e : Dashboard.DashEvent)
    (hm : s.mounted = true) (ht : a ∈ s.pendingTimeouts.map Prod.fst)
    (hlast : s.pendingComputes.filter (fun x => x ≠ a) = [])
    (hrem : Dashboard.removesPendingOf a e) :
    (Dashboard.dashStep s e).isComputing = false ∧
    (Dashboard.dashStep s e).computingProgress = none := by
  cases e with
  | message m =>
    cases m with
    | allocatorCreated id ty cfg => simp [Dashboard.removesPendingOf] at hrem
    | allocatorUpdated id cfg => simp [Dashboard.removesPendingOf] at hrem
    | allocatorsList allocs => simp [Dashboard.removesPendingOf] at hrem
    | allocatorDeleted id => simp [Dashboard.removesPendingOf] at hrem
    | progress p => simp [Dashboard.removesPendingOf] at hrem
    | result rid segs perf =>
      simp only [Dashboard.removesPendingOf] at hrem
      rw [← hrem] at hlast
      have hs : Dashboard.dashStep s (.message (.result rid segs perf)) =
          Dashboard.cleanupPendingCompute
            { s with results :=
                s.results.filter (fun r => r.1 ≠ rid) ++ [(rid, ⟨rid, segs, perf⟩)] } rid := by
        simp [Dashboard.dashStep, Dashboard.handleServerMessage, hm]
      rw [hs]
      exact cleanup_resets _ rid hlast
    | error m c aid =>
      cases aid with
      | some b =>
        simp only [Dashboard.removesPendingOf, Option.some.injEq] at hrem
        rw [← hrem] at hlast
        have hs : Dashboard.dashStep s (.message (.error m c (some b))) =
            Dashboard.cleanupPendingCompute s b := by
          simp [Dashboard.dashStep, Dashboard.handleServerMessage, hm]
        rw [hs]
        exact cleanup_resets s b hlast
      | none => simp [Dashboard.removesPendingOf] at hrem
  | timeoutFire b =>
    simp only [Dashboard.removesPendingOf] at hrem
    rw [← hrem] at ht hlast
    have hb : s.pendingTimeouts.any (fun p => p.1 = b) = true := any_key_iff.mpr ht
    have hs : Dashboard.dashStep s (.timeoutFire b) =
        Dashboard.cleanupPendingCompute s b := by
      simp [Dashboard.dashStep, hb]
    rw [hs]
    exact cleanup_resets s b hlast

/-- C3: pending markers and 5-minute timers are created together by
`handleCompute`, one per enabled allocator, alongside exactly one compute
call per allocator; a live marker/timer pair is removed by a dashboard step
exactly when the allocator's result arrives, a scoped error naming it
arrives, or its timeout fires; and removing the last marker resets the
computing flag and the progress display. -/
theorem pending_compute_lifecycle :
    (∀ (s : Dashboard.DashState) (dr : Types.DateRange) (inc : Bool),
      (Dashboard.validateDateRange dr).isValid = true →
      s.allocators.filter (fun a => s.enabledIds.contains a.id) ≠ [] →
      (∀ x : String,
        (x ∈ (Dashboard.handleCompute s dr inc .connected).1.pendingComputes ↔
          x ∈ (s.allocators.filter (fun a => s.enabledIds.contains a.id)).map
            (fun a => a.id)) ∧
        (x ∈ (Dashboard.handleCompute s dr inc .connected).1.pendingTimeouts.map Prod.fst ↔
          x ∈ (s.allocators.filter (fun a => s.enabledIds.contains a.id)).map
            (fun a => a.id))) ∧
      (∀ p ∈ (Dashboard.handleCompute s dr inc .connected).1.pendingTimeouts,
        p.2 = Dashboard.computeTimeoutMs) ∧
      (Dashboard.handleCompute s dr inc .connected).2.1 =
        (List.enumFrom 0 (s.allocators.filter (fun a => s.enabledIds.contains a.id))).map
          (fun p => Hook.wsComputeCall p.2.id dr inc (p.1 + 1)
            (s.allocators.filter (fun a => s.enabledIds.contains a.id)).length) ∧
      (Dashboard.handleCompute s dr inc .connected).1.isComputing = true) ∧
    (∀ (s : Dashboard.DashState) (a : String) (e : Dashboard.DashEvent),
      s.mounted = true → a ∈ s.pendingComputes → a ∈ s.pendingTimeouts.map Prod.fst →
      ((a ∉ (Dashboard.dashStep s e).pendingComputes ∧
        a ∉ (Dashboard.dashStep s e).pendingTimeouts.map Prod.fst) ↔
        Dashboard.removesPendingOf a e)) ∧
    (∀ (s : Dashboard.DashState) (a : String) (e : Dashboard.DashEvent),
      s.mounted = true → a ∈ s.pendingTimeouts.map Prod.fst →
      s.pendingComputes.filter (fun x => x ≠ a) = [] →
      Dashboard.removesPendingOf a e →
      (Dashboard.dashStep s e).isComputing = false ∧
      (Dashboard.dashStep s e).computingProgress = none) :=
  ⟨fun s dr inc hval hne => handleCompute_creates s dr inc hval hne,
    fun s a e hm hp ht => step_removes_pending_iff s a e hm hp ht,
    fun s a e hm ht hlast hrem => step_remove_resets s a e hm ht hlast hrem⟩

/-- C3 witness: on a state with one enabled allocator `a1`, a valid range
and a live connection, compute creates `a1`'s marker and timer; on a state
with `a` pending, a scoped error for `a` removes the pair (the removal
test evaluates to true), and `a`'s timeout firing, being the last marker,
resets the computing flag and the progress display. -/
theorem pending_compute_lifecycle_witness :
    (("a1" ∈ (Dashboard.handleCompute Dashboard.demoCreateState
        ⟨0, 1, 2⟩ true .connected).1.pendingComputes ↔
      "a1" ∈ (Dashboard.demoCreateState.allocators.filter
          (fun a => Dashboard.demoCreateState.enabledIds.contains a.id)).map
        (fun a => a.id)) ∧
      ("a1" ∈ (Dashboard.handleCompute Dashboard.demoCreateState
          ⟨0, 1, 2⟩ true .connected).1.pendingTimeouts.map Prod.fst ↔
        "a1" ∈ (Dashboard.demoCreateState.allocators.filter
            (fun a => Dashboard.demoCreateState.enabledIds.contains a.id)).map
          (fun a => a.id))) ∧
    (("a" ∉ (Dashboard.dashStep Dashboard.demoPendingState
        (.message (.error "boom" "E" (some "a")))).pendingComputes ∧
      "a" ∉ (Dashboard.dashStep Dashboard.demoPendingState
        (.message (.error "boom" "E" (some "a")))).pendingTimeouts.map Prod.fst) ↔
      Dashboard.removesPendingOf "a" (.message (.error "boom" "E" (some "a")))) ∧
    ((Dashboard.dashStep Dashboard.demoPendingState (.timeoutFire "a")).isComputing = false ∧
      (Dashboard.dashStep Dashboard.demoPendingState
        (.timeoutFire "a")).computingProgress = none) :=
  ⟨(pending_compute_lifecycle.1 Dashboard.demoCreateState ⟨0, 1, 2⟩ true
      (by decide) (by decide)).1 "a1",
    pending_compute_lifecycle.2.1 Dashboard.demoPendingState "a"
      (.message (.error "boom" "E" (some "a"))) rfl (by decide) (by decide),
    pending_compute_lifecycle.2.2 Dashboard.demoPendingState "a" (.timeoutFire "a")
      rfl (by decide) (by decide) (by decide)⟩

/-- C7: when backend stats are absent, the annualized return reported by
`getStats` is exactly the spec's CAGR — computed from the final cumulative
value and the elapsed calendar time between the first and last dates with
`years = days / 365.25` — and it is 0 whenever the elapsed time is zero or
negative, including when fewer than two dates exist. -/
theorem getStats_annualized_matches_spec (pow : ℚ → ℚ → ℚ)
    (result : Types.AllocatorResult)
    (hs : result.performance.stats = none) :
    (PortfolioInfo.getStats pow result).annualizedReturn =
      PortfolioInfo.specAnnualizedReturn pow result ∧
    (result.performance.dates.length < 2 →
      (PortfolioInfo.getStats pow result).annualizedReturn = 0) ∧
    (result.performance.dates.getLast?.getD 0 - result.performance.dates.headI ≤ 0 →
      (PortfolioInfo.getStats pow result).annualizedReturn = 0) := by
  have hcode : (PortfolioInfo.getStats pow result).annualizedReturn =
      (if 0 < (if 2 ≤ result.performance.dates.length then
          ((result.performance.dates.getLast?.getD 0 - result.performance.dates.headI) /
            PortfolioInfo.msPerDay) / (365.25 : ℚ)
        else 0) then
        (pow (1 + (result.performance.cumulative_returns.getLast?.getD 0) / 100)
          (1 / (if 2 ≤ result.performance.dates.length then
            ((result.performance.dates.getLast?.getD 0 - result.performance.dates.headI) /
              PortfolioInfo.msPerDay) / (365.25 : ℚ)
          else 0)) - 1) * 100
      else 0) := by
    simp only [PortfolioInfo.getStats, hs]
  refine ⟨?_, ?_, ?_⟩
  · rw [hcode]
    simp only [PortfolioInfo.specAnnualizedReturn]
    by_cases hlen : 2 ≤ result.performance.dates.length
    · simp only [if_pos hlen]
      by_cases hy : 0 < ((result.performance.dates.getLast?.getD 0 -
          result.performance.dates.headI) / PortfolioInfo.msPerDay) / (365.25 : ℚ)
      · rw [if_pos hy, if_neg (not_le.mpr hy)]
      · rw [if_neg hy, if_pos (not_lt.mp hy)]
    · simp only [if_neg hlen]
      rw [if_neg (lt_irrefl 0), if_pos]
      rw [zero_div]
  · intro hlen
    rw [hcode, if_neg]
    rw [if_neg (by omega : ¬ 2 ≤ result.performance.dates.length)]
    exact lt_irrefl 0
  · intro hneg
    rw [hcode, if_neg]
    by_cases hlen : 2 ≤ result.performance.dates.length
    · rw [if_pos hlen]
      intro hy
      have hk : (0 : ℚ) < PortfolioInfo.msPerDay * 365.25 := by
        norm_num [PortfolioInfo.msPerDay]
      rw [div_div] at hy
      have h2 : (0 : ℚ) <
          ((result.performance.dates.getLast?.getD 0 - result.performance.dates.headI) /
            (PortfolioInfo.msPerDay * 365.25)) * (PortfolioInfo.msPerDay * 365.25) :=
        mul_pos hy hk
      rw [div_mul_cancel₀ _ (ne_of_gt hk)] at h2
      linarith
    · rw [if_neg hlen]
      exact lt_irrefl 0

/-- C7 witness: with no backend stats, dates exactly one Julian year apart
(in ms) and a final cumulative return of 10, the code's annualized return
agrees with the spec's CAGR formula. -/
theorem getStats_annualized_matches_spec_witness :
    (PortfolioInfo.getStats (fun a b => a + b)
        ⟨"p", [], ⟨[0, 31557600000], [10], none⟩⟩).annualizedReturn =
      PortfolioInfo.specAnnualizedReturn (fun a b => a + b)
        ⟨"p", [], ⟨[0, 31557600000], [10], none⟩⟩ :=
  (getStats_annualized_matches_spec (fun a b => a + b)
    ⟨"p", [], ⟨[0, 31557600000], [10], none⟩⟩ rfl).1

/-- A successful bounded look-back yields a value of the ticker's own raw
series at a date no later than the requested one. -/
theorem lookbackPrice_spec (raw : Nat → Option Int) :
    ∀ (tol d : Nat) (p : Int), Backend.lookbackPrice raw d tol = some p →
      ∃ d0, d0 ≤ d ∧ raw d0 = some p := by
  intro tol
  induction tol with
  | zero =>
    intro d p h
    exact ⟨d, le_refl d, h⟩
  | succ t ih =>
    intro d p h
    simp only [Backend.lookbackPrice] at h
    cases hr : raw d with
    | some q =>
      rw [hr] at h
      obtain rfl : q = p := Option.some.inj h
      exact ⟨d, le_refl d, hr⟩
    | none =>
      rw [hr] at h
      by_cases hd : d = 0
      · rw [if_pos hd] at h
        cases h
      · rw [if_neg hd] at h
        obtain ⟨d0, hle, hr0⟩ := ih (d - 1) p h
        exact ⟨d0, le_trans hle (Nat.sub_le d 1), hr0⟩

/-- C2: for every dynamically rebalanced segment, every observation in the
price data its fit receives is dated strictly before the segment's start
date, and its value comes from the ticker's own raw series at a date no
later than the observation date (never from another ticker). -/
theorem dynamic_fit_window_no_lookahead (raw : Nat → Option Int)
    (gapTol fitStart fitEnd testEnd step : Nat) (seg : Nat × Nat)
    (data : List (Nat × Int)) (d : Nat) (p : Int)
    (hseg : (seg, some data) ∈
      Backend.dynamicSegmentsWithFitData raw gapTol fitStart fitEnd testEnd step)
    (hd : (d, p) ∈ data) :
    d < seg.1 ∧ ∃ d0, d0 ≤ d ∧ raw d0 = some p := by
  unfold Backend.dynamicSegmentsWithFitData at hseg
  rw [List.mem_map] at hseg
  obtain ⟨sg, hsg, heq⟩ := hseg
  have h1 : sg = seg := congrArg Prod.fst heq
  subst h1
  have h2 : Backend.segmentFitData raw gapTol (fitEnd - fitStart) sg = some data :=
    congrArg Prod.snd heq
  simp only [Backend.segmentFitData, Backend.alignSeries] at h2
  split at h2
  · obtain rfl : _ = data := Option.some.inj h2
    rw [List.mem_filterMap] at hd
    obtain ⟨day, hday, hmap⟩ := hd
    rw [Option.map_eq_some'] at hmap
    obtain ⟨pr, hlb, hpair⟩ := hmap
    obtain ⟨heq1, heq2⟩ : day = d ∧ pr = p :=
      ⟨congrArg Prod.fst hpair, congrArg Prod.snd hpair⟩
    rw [heq1] at hday
    rw [heq1, heq2] at hlb
    rw [List.mem_range'_1] at hday
    constructor
    · omega
    · exact lookbackPrice_spec raw gapTol d p hlb
  · cases h2

/-- C2 witness: with a 5-day fit window, boundaries `[5, 9, 12]` and the
ticker's raw series `d ↦ d`, segment `(9, 12)` is fit on the days `4..8`,
and the observation `(4, 4)` there is dated before 9 and drawn from the raw
series at a date ≤ 4. -/
theorem dynamic_fit_window_no_lookahead_witness :
    (((9, 12), some [(4, 4), (5, 5), (6, 6), (7, 7), (8, 8)]) ∈
      Backend.dynamicSegmentsWithFitData (fun d : Nat => some (d : Int)) 2 0 5 12 4) ∧
    ((4, (4 : Int)) ∈ [(4, (4 : Int)), (5, 5), (6, 6), (7, 7), (8, 8)]) ∧
    (4 < (9, 12).1 ∧ ∃ d0, d0 ≤ 4 ∧ (fun d : Nat => some (d : Int)) d0 = some 4) :=
  ⟨by decide, by decide,
    dynamic_fit_window_no_lookahead (fun d : Nat => some (d : Int)) 2 0 5 12 4 (9, 12)
      [(4, 4), (5, 5), (6, 6), (7, 7), (8, 8)] 4 4 (by decide) (by decide)⟩
